import Mathlib

/-!
# Verification of the MetinAnaliz earthquake aggregation core

Shallow embedding of `src/services/earthquake_cache.py` (class `EarthquakeCache`)
and the slice of `src/backend/routers/earthquake.py` that surfaces its errors.

Modelling conventions:
* Python `float` values (magnitudes, coordinates, tolerances) are modelled as
  exact rationals `ℚ`; epoch-millisecond times are modelled as `ℤ`.
* A GeoJSON feature dict is modelled by the structure `Feature`, carrying
  exactly the keys the embedded code reads or writes (top-level `id`,
  `properties.time/mag/place/updated/magType/source/match_group`,
  `geometry.coordinates = [lon, lat, depth]`).  A missing key is `Option.none`;
  a feature whose `id` key is missing is modelled with `id = ""` (Python treats
  both `None` and `""` as falsy in `if candidate_id:`).
* String processing is done on `List Char` (`String.data`), with helper
  functions mirroring the Python `str` operations used by the source.
-/

/-- `EarthquakeCache.TIME_TOLERANCE_MS = 5 * 60 * 1000` (line 31). -/
def TIME_TOLERANCE_MS : Int := 5 * 60 * 1000

/-- `EarthquakeCache.COORD_TOLERANCE_DEG = 0.2` (line 32), as an exact rational
(built with `mkRat` so that concrete instances evaluate by kernel reduction). -/
def COORD_TOLERANCE_DEG : ℚ := mkRat 2 10

/-- `EarthquakeCache.MAG_TOLERANCE = 0.3` (line 33), as an exact rational. -/
def MAG_TOLERANCE : ℚ := mkRat 3 10

/-- Kernel-computable subtraction on `ℚ` (Batteries marks `Rat.sub` irreducible;
`Rat.sub_def'` shows this definition agrees with `a - b`). -/
def qsub (a b : ℚ) : ℚ := mkRat (a.num * b.den - b.num * a.den) (a.den * b.den)

theorem qsub_eq (a b : ℚ) : qsub a b = a - b := (Rat.sub_def' a b).symm

/-- Canonical model of one GeoJSON feature dict, restricted to the keys the
embedded code reads or writes. -/
structure Feature where
  id : String
  time : Option Int
  mag : Option ℚ
  lat : Option ℚ
  lon : Option ℚ
  depth : Option ℚ
  place : String
  updated : Option Int
  magType : String
  source : Option String
  match_group : Option String
deriving Repr, DecidableEq

instance : Inhabited Feature :=
  ⟨{ id := "", time := none, mag := none, lat := none, lon := none,
     depth := none, place := "", updated := none, magType := "",
     source := none, match_group := none }⟩

/-- The fields of a feature that the fusion engine never touches
(everything except `source` and `match_group`). -/
structure CoreFields where
  id : String
  time : Option Int
  mag : Option ℚ
  lat : Option ℚ
  lon : Option ℚ
  depth : Option ℚ
  place : String
  updated : Option Int
  magType : String
deriving Repr, DecidableEq

/-- Projection of a feature onto its fusion-invariant fields. -/
def core (f : Feature) : CoreFields :=
  { id := f.id, time := f.time, mag := f.mag, lat := f.lat, lon := f.lon,
    depth := f.depth, place := f.place, updated := f.updated, magType := f.magType }

/-- Index of the first list element satisfying `p` (the Python
`for item in existing: ... return item` loops, returning an index so that the
callers can model in-place mutation of the matched dict). -/
def findIdx0 {α : Type} (p : α → Bool) : List α → Option Nat
  | [] => none
  | a :: rest => if p a then some 0 else (findIdx0 p rest).map (· + 1)

/-- Python `abs` on an integer. -/
def iabs (x : Int) : Int := if x < 0 then -x else x

/-- Python `abs` on a (rational-modelled) float. -/
def qabs (q : ℚ) : ℚ := if q < 0 then -q else q

/-- All eight required fields present and all four tolerance bounds hold
(the body of the scan loop of `_find_match`, lines 476-494). -/
def within_tolerances (item candidate : Feature) : Bool :=
  match item.time, item.mag, item.lat, item.lon,
        candidate.time, candidate.mag, candidate.lat, candidate.lon with
  | some it, some im, some ila, some ilo, some ct, some cm, some cla, some clo =>
      decide (iabs (it - ct) ≤ TIME_TOLERANCE_MS) &&
      decide (qabs (qsub im cm) ≤ MAG_TOLERANCE) &&
      decide (qabs (qsub ila cla) ≤ COORD_TOLERANCE_DEG) &&
      decide (qabs (qsub ilo clo) ≤ COORD_TOLERANCE_DEG)
  | _, _, _, _, _, _, _, _ => false

/-- `EarthquakeCache._find_match` (lines 456-496), returning the index of the
matched element of `existing` instead of an aliased reference.
First the id-equality pass (entered only when `candidate_id` is truthy,
i.e. the id is nonempty); then the required-field guard on the candidate;
then the first-fit tolerance scan. -/
def find_match (candidate : Feature) (existing : List Feature) : Option Nat :=
  match (if candidate.id ≠ "" then
           findIdx0 (fun item => item.id == candidate.id) existing
         else none) with
  | some i => some i
  | none =>
    if candidate.time.isSome && candidate.mag.isSome &&
       candidate.lat.isSome && candidate.lon.isSome then
      findIdx0 (fun item => within_tolerances item candidate) existing
    else none

/-- The seeding pass of `_merge_features` (lines 438-440):
`feature.setdefault("properties", {}).setdefault("source", "USGS")`. -/
def tag_source (f : Feature) : Feature :=
  { f with source := match f.source with | none => some "USGS" | some s => some s }

/-- Python truthiness test `if not group_id:` on the value of
`match.get("properties", {}).get("match_group")` (line 447):
falsy when the key is absent or the string empty. -/
def group_falsy : Option String → Bool
  | none => true
  | some s => s == ""

/-- One iteration of the incoming-feature loop of `_merge_features`
(lines 443-452).  State: the merged list so far and `group_counter`. -/
def merge_step (acc : List Feature × Nat) (feature : Feature) : List Feature × Nat :=
  let merged := acc.1
  match find_match feature merged with
  | none => (merged ++ [feature], acc.2)
  | some i =>
    let m := merged.getD i default
    if group_falsy m.match_group then
      let gid := "match-" ++ toString acc.2
      (merged.set i { m with match_group := some gid } ++
         [{ feature with match_group := some gid }],
       acc.2 + 1)
    else
      (merged ++ [{ feature with match_group := m.match_group }], acc.2)

/-- `EarthquakeCache._merge_features` (lines 432-454). -/
def merge_features (base_features incoming_features : List Feature) : List Feature :=
  (incoming_features.foldl merge_step (base_features.map tag_source, 1)).1

/-! ## String utilities mirroring the Python `str` operations used by the source

All of these work on `List Char` (`String.data`).  `Char.isWhitespace` stands in
for both Python whitespace stripping and the regex class `\s`; the characters
actually occurring in the provider text are covered identically by both. -/

/-- Split at every separator character (keeping empty segments), the generic
worker behind the `splitlines` model. -/
def splitOnPred (p : Char → Bool) (cs : List Char) : List (List Char) :=
  cs.foldr
    (fun c acc =>
      if p c then [] :: acc
      else
        match acc with
        | [] => [[c]]
        | g :: gs => (c :: g) :: gs)
    [[]]

/-- Python `str.split()` with no argument: split on whitespace runs, dropping
empty fields. -/
def pySplitWs (cs : List Char) : List (List Char) :=
  (splitOnPred Char.isWhitespace cs).filter (fun g => !g.isEmpty)

/-- Python `str.strip()`: drop leading and trailing whitespace. -/
def pyStrip (cs : List Char) : List Char :=
  ((cs.dropWhile Char.isWhitespace).reverse.dropWhile Char.isWhitespace).reverse

/-- Python `str.splitlines()`, modelled as splitting at `\n` and `\r`.
(A `\r\n` pair then yields one extra empty line, which every consumer in the
embedded code skips, so the difference is unobservable.) -/
def pySplitlines (cs : List Char) : List (List Char) :=
  splitOnPred (fun c => c = '\n' || c = '\r') cs

/-- Python `" ".join(...)`. -/
def joinWithSpace : List (List Char) → List Char
  | [] => []
  | [x] => x
  | x :: rest => x ++ ' ' :: joinWithSpace rest

/-! ## Regex `^\d{4}\.\d{2}\.\d{2}\s+\d{2}:\d{2}:\d{2}` (line 338) -/

/-- Consume exactly `n` decimal digits. -/
def dropDigits : Nat → List Char → Option (List Char)
  | 0, rest => some rest
  | n + 1, c :: rest => if c.isDigit then dropDigits n rest else none
  | _ + 1, [] => none

/-- Consume exactly the character `ch`. -/
def dropChar (ch : Char) : List Char → Option (List Char)
  | c :: rest => if c = ch then some rest else none
  | [] => none

/-- Consume `\s+` (one or more whitespace characters, greedily). -/
def dropWsPlus : List Char → Option (List Char)
  | c :: rest =>
      if c.isWhitespace then some (rest.dropWhile Char.isWhitespace) else none
  | [] => none

/-- `re.match(r"^\d{4}\.\d{2}\.\d{2}\s+\d{2}:\d{2}:\d{2}", line)` as a Bool:
the timestamp-shaped prefix test that admits a line into the Kandilli parser. -/
def kandilli_line_pattern (cs : List Char) : Bool :=
  (do
    let r ← dropDigits 4 cs
    let r ← dropChar '.' r
    let r ← dropDigits 2 r
    let r ← dropChar '.' r
    let r ← dropDigits 2 r
    let r ← dropWsPlus r
    let r ← dropDigits 2 r
    let r ← dropChar ':' r
    let r ← dropDigits 2 r
    let r ← dropChar ':' r
    let _ ← dropDigits 2 r
    pure ()).isSome

/-! ## Python `float()` and `EarthquakeCache._to_float` (lines 498-507) -/

/-- Numeric value of a digit string. -/
def digitsVal (ds : List Char) : Nat :=
  ds.foldl (fun a c => a * 10 + (c.toNat - 48)) 0

/-- Apply an optional leading minus sign. -/
def signedInt (neg : Bool) (n : Nat) : Int :=
  if neg then -(n : Int) else (n : Int)

/-- Python `float(s)` on the decimal token shapes the provider text contains:
optional sign, integer digits, optional fraction (`12`, `4.2`, `.5`, `5.`,
`-7.3`).  Scientific notation, `inf`/`nan` and digit underscores never occur in
the modelled tokens and are not modelled (they yield `none`). -/
def pyFloatChars (cs : List Char) : Option ℚ :=
  let signAndRest : Bool × List Char :=
    match cs with
    | '-' :: t => (true, t)
    | '+' :: t => (false, t)
    | t => (false, t)
  let neg := signAndRest.1
  let rest := signAndRest.2
  let ip := rest.takeWhile Char.isDigit
  let rest1 := rest.dropWhile Char.isDigit
  match rest1 with
  | [] =>
      if ip.isEmpty then none
      else some (mkRat (signedInt neg (digitsVal ip)) 1)
  | '.' :: t =>
      let fp := t.takeWhile Char.isDigit
      let rest2 := t.dropWhile Char.isDigit
      if rest2.isEmpty && !(ip.isEmpty && fp.isEmpty) then
        some (mkRat (signedInt neg (digitsVal ip * 10 ^ fp.length + digitsVal fp))
                    (10 ^ fp.length))
      else none
  | _ => none

/-- `EarthquakeCache._to_float`: empty and the placeholder tokens
`-.-`/`--`/`---` are missing; otherwise decimal commas are normalized to dots
and the token is parsed as a float (`None`, modelled `none`, on failure). -/
def to_float (value : List Char) : Option ℚ :=
  if value.isEmpty then none
  else if value = "-.-".data ∨ value = "--".data ∨ value = "---".data then none
  else pyFloatChars (value.map (fun c => if c = ',' then '.' else c))

/-! ## Proleptic-Gregorian calendar and `datetime.timestamp()` -/

/-- Gregorian leap-year rule (as in Python `datetime`). -/
def isLeapYear (y : Nat) : Bool :=
  y % 4 == 0 && (y % 100 != 0 || y % 400 == 0)

/-- Number of days in a month (as validated by the `datetime` constructor). -/
def daysInMonth (y m : Nat) : Nat :=
  if m = 2 then (if isLeapYear y then 29 else 28)
  else if m = 4 ∨ m = 6 ∨ m = 9 ∨ m = 11 then 30
  else 31

/-- Days from the Unix epoch (1970-01-01) to the civil date `y-m-d`
(standard days-from-civil algorithm; requires `1 ≤ y`, `1 ≤ m ≤ 12`, `1 ≤ d`,
which the `strptime` model guarantees). -/
def daysFromCivil (y m d : Nat) : Int :=
  let yp : Nat := if m ≤ 2 then y - 1 else y
  let era : Nat := yp / 400
  let yoe : Nat := yp % 400
  let mp : Nat := if m > 2 then m - 3 else m + 9
  let doy : Nat := (153 * mp + 2) / 5 + (d - 1)
  let doe : Nat := yoe * 365 + yoe / 4 - yoe / 100 + doy
  (era * 146097 + doe : Int) - 719468

/-- A Python `datetime`: civil fields plus an optional fixed UTC offset in
seconds (`none` models a naive datetime). -/
structure PyDateTime where
  year : Nat
  month : Nat
  day : Nat
  hour : Nat
  minute : Nat
  second : Nat
  tzOffsetSecs : Option Int
deriving Repr, DecidableEq

/-- `EarthquakeCache._to_utc_ms` (lines 519-525), which is also
`int(dt.timestamp() * 1000)` for an aware datetime with a fixed offset:
a naive datetime is interpreted as UTC (`replace(tzinfo=timezone.utc)`),
an aware one has its offset subtracted. -/
def to_utc_ms (dt : PyDateTime) : Int :=
  (daysFromCivil dt.year dt.month dt.day * 86400
    + ((dt.hour * 3600 + dt.minute * 60 + dt.second : Nat) : Int)
    - dt.tzOffsetSecs.getD 0) * 1000

/-- A field matched by `strptime` with a 2-digit directive: 1 or 2 digits. -/
def twoDigitField (cs : List Char) : Bool :=
  !cs.isEmpty && cs.length ≤ 2 && cs.all Char.isDigit

/-- `datetime.strptime(f"{date_str} {time_str}", "%Y.%m.%d %H:%M:%S")`
(lines 380-386): component-wise digit match plus the range validation the
`datetime` constructor performs; `none` models the caught `ValueError`. -/
def strptime_Ymd_HMS (dateCs timeCs : List Char) : Option PyDateTime :=
  match splitOnPred (fun c => c = '.') dateCs,
        splitOnPred (fun c => c = ':') timeCs with
  | [ys, ms, ds], [hs, mins, ss] =>
    if (!ys.isEmpty && ys.length ≤ 4 && ys.all Char.isDigit) &&
       twoDigitField ms && twoDigitField ds &&
       twoDigitField hs && twoDigitField mins && twoDigitField ss then
      let y := digitsVal ys
      let mo := digitsVal ms
      let d := digitsVal ds
      let h := digitsVal hs
      let mi := digitsVal mins
      let s := digitsVal ss
      if 1 ≤ y && y ≤ 9999 && 1 ≤ mo && mo ≤ 12 &&
         1 ≤ d && d ≤ daysInMonth y mo && h ≤ 23 && mi ≤ 59 && s ≤ 59 then
        some { year := y, month := mo, day := d,
               hour := h, minute := mi, second := s, tzOffsetSecs := none }
      else none
    else none
  | _, _ => none

/-! ## Kandilli text parser (`_parse_kandilli_text`, lines 328-430) -/

/-- Round-half-to-even of `q * 10000` to an integer, for the `f"{x:.4f}"`
pieces of the constructed event id. (Binary-double representation artifacts of
CPython float formatting are not modelled; no claim inspects these ids.) -/
def roundHalfEven4 (q : ℚ) : Int :=
  let n : Int := q.num * 10000
  let d : Int := (q.den : Int)
  let fl : Int := n.fdiv d
  let rem : Int := n.fmod d
  if 2 * rem > d then fl + 1
  else if 2 * rem < d then fl
  else if fl % 2 = 0 then fl else fl + 1

/-- Left-pad a digit string with zeros to length 4. -/
def pad4 (s : String) : String :=
  String.mk (List.replicate (4 - s.length) '0') ++ s

/-- `f"{x:.4f}"`. -/
def fmt4 (q : ℚ) : String :=
  let r := roundHalfEven4 q
  let a := r.natAbs
  let sign := if r < 0 then "-" else ""
  sign ++ toString (a / 10000) ++ "." ++ pad4 (toString (a % 10000))

/-- First parseable magnitude among the up-to-three magnitude columns,
together with its column index (the loop at lines 357-362). -/
def firstFloatIdx : List (List Char) → Option (ℚ × Nat)
  | [] => none
  | v :: rest =>
    match to_float v with
    | some q => some (q, 0)
    | none => (firstFloatIdx rest).map (fun p => (p.1, p.2 + 1))

/-- Fallback scan: first parseable token (lines 365-370). -/
def firstFloat : List (List Char) → Option ℚ
  | [] => none
  | v :: rest =>
    match to_float v with
    | some q => some q
    | none => firstFloat rest

/-- One iteration of the line loop of `_parse_kandilli_text` (lines 334-428):
`some` is the feature appended for this line, `none` a `continue`. -/
def parse_kandilli_line (rawLine : List Char) : Option Feature :=
  let line := pyStrip rawLine
  if line.isEmpty then none
  else if !kandilli_line_pattern line then none
  else
    let parts := pySplitWs line
    if parts.length < 6 then none
    else
      let dateCs := parts.getD 0 []
      let timeCs := parts.getD 1 []
      match to_float (parts.getD 2 []), to_float (parts.getD 3 []),
            to_float (parts.getD 4 []) with
      | some lat, some lon, some depth =>
        let magValues := (parts.drop 5).take 3
        let magSel : Option ℚ × String :=
          match firstFloatIdx magValues with
          | some (q, idx) => (some q, (["md", "ml", "mw"].getD idx ""))
          | none => (firstFloat (parts.drop 5), "")
        match magSel.1 with
        | none => none
        | some mag =>
          let pts := 5 + magValues.length
          let placeStart := if pts > parts.length then 5 else pts
          let place := String.mk (pyStrip (joinWithSpace (parts.drop placeStart)))
          match strptime_Ymd_HMS dateCs timeCs with
          | none => none
          | some dt =>
            let time_ms := to_utc_ms { dt with tzOffsetSecs := some 10800 }
            let event_id := "kandilli-" ++ String.mk dateCs ++ "-" ++
              String.mk timeCs ++ "-" ++ fmt4 lat ++ "-" ++ fmt4 lon
            some { id := event_id, time := some time_ms, mag := some mag,
                   lat := some lat, lon := some lon, depth := some depth,
                   place := place, updated := some time_ms,
                   magType := magSel.2, source := some "Kandilli",
                   match_group := none }
      | _, _, _ => none

/-- `EarthquakeCache._parse_kandilli_text` (lines 328-430). -/
def parse_kandilli_text (text : String) : List Feature :=
  if text.data.isEmpty then []
  else (pySplitlines text.data).filterMap parse_kandilli_line

/-! ## Local filtering of parsed Kandilli events
(`_get_kandilli_features`, lines 189-221; the network fetch and `<pre>`
extraction are abstracted into the `text` argument) -/

/-- One iteration of the filter loop (lines 206-219): `continue` on a missing
magnitude or time, a time outside the window, or a magnitude outside the
bounds; otherwise append. -/
def kandilli_filter_step (startMs endMs : Int) (minMag : ℚ) (maxMag : Option ℚ)
    (acc : List Feature) (feature : Feature) : List Feature :=
  match feature.mag, feature.time with
  | some mag, some time_ms =>
    if time_ms < startMs ∨ time_ms > endMs then acc
    else if mag < minMag then acc
    else if (match maxMag with | some mx => decide (mag > mx) | none => false) then acc
    else acc ++ [feature]
  | _, _ => acc

/-- The filtering core of `_get_kandilli_features` applied to an already-parsed
feature list (lines 199-221, including the early return on an empty parse). -/
def kandilli_local_filter (features : List Feature) (startMs endMs : Int)
    (minMag : ℚ) (maxMag : Option ℚ) : List Feature :=
  if features.isEmpty then []
  else features.foldl (kandilli_filter_step startMs endMs minMag maxMag) []

/-- `_get_kandilli_features` given the fetched text: parse, then filter by the
query window and magnitude bounds converted via `_to_utc_ms`. -/
def get_kandilli_features (text : String) (start_time end_time : PyDateTime)
    (min_magnitude : ℚ) (max_magnitude : Option ℚ) : List Feature :=
  kandilli_local_filter (parse_kandilli_text text)
    (to_utc_ms start_time) (to_utc_ms end_time) min_magnitude max_magnitude

/-- The claim-side membership predicate for the Kandilli filter: present time
within `[startMs, endMs]` and present magnitude within the bounds. -/
def kandilli_keep (startMs endMs : Int) (minMag : ℚ) (maxMag : Option ℚ)
    (f : Feature) : Bool :=
  match f.time, f.mag with
  | some t, some m =>
      decide (startMs ≤ t) && decide (t ≤ endMs) && decide (minMag ≤ m) &&
      (match maxMag with | none => true | some mx => decide (m ≤ mx))
  | _, _ => false

/-! ## Orchestration (`get_earthquakes`, lines 59-166) and error handling -/

/-- One per-provider status record of the `sources` map
(`{"ok": True}` or `{"ok": False, "error": str(exc)}`, lines 109, 136-148). -/
structure SourceStatus where
  ok : Bool
  error : Option String
deriving Repr, DecidableEq

/-- The `metadata` object of the fused payload, restricted to the two keys the
embedded code writes (`count`, `sources`, lines 159-161); the remaining
USGS-supplied metadata keys pass through unread and are not modelled. -/
structure Metadata where
  count : Nat
  sources : List (String × SourceStatus)
deriving Repr, DecidableEq

/-- The successful USGS GeoJSON payload as read by `get_earthquakes`:
its `features` array and whether it carries a `metadata` object
(line 159 guards on `"metadata" in data`). -/
structure UsgsData where
  features : List Feature
  hasMetadata : Bool
deriving Repr, DecidableEq

/-- The fused response returned by `get_earthquakes`. -/
structure FusedResponse where
  features : List Feature
  metadata : Option Metadata
deriving Repr, DecidableEq

/-- `EarthquakeCache._fetch_with_timeout` (lines 535-539): `none` models the
wrapped coroutine exceeding `SOURCE_TIMEOUT_SECONDS` (an `asyncio.TimeoutError`,
re-raised as `RuntimeError("Timeout after 3s")`); `some r` its own outcome. -/
def fetch_with_timeout {α : Type} (result : Option (Except String α)) :
    Except String α :=
  match result with
  | none => Except.error "Timeout after 3s"
  | some r => r

/-- How `get_earthquakes` consumes one secondary result of `asyncio.gather(...,
return_exceptions=True)` (lines 136-148): an exception becomes
`{ok: False, error: str(exc)}` with an empty feature list, a value becomes
`{ok: True}` with its features (`result or []`). -/
def source_entry (r : Except String (List Feature)) :
    List Feature × SourceStatus :=
  match r with
  | Except.ok fs => (fs, ⟨true, none⟩)
  | Except.error e => ([], ⟨false, some e⟩)

/-- The fusion-and-metadata step of `get_earthquakes` (lines 109, 130-161),
with the USGS payload already fetched and the two secondary outcomes given:
merge Kandilli into USGS, then EMSC into the result, and, when the payload has
a `metadata` object, set `count` and the per-source `sources` map. -/
def get_earthquakes_fused (usgs : UsgsData)
    (kandilli_result emsc_result : Except String (List Feature)) :
    FusedResponse :=
  let kandilli := source_entry kandilli_result
  let emsc := source_entry emsc_result
  let merged := merge_features (merge_features usgs.features kandilli.1) emsc.1
  { features := merged
    metadata :=
      if usgs.hasMetadata then
        some { count := merged.length
               sources := [("USGS", ⟨true, none⟩), ("Kandilli", kandilli.2),
                           ("EMSC", emsc.2)] }
      else none }

/-! ## Result cache and the primary-fetch fallback
(`_fetch_from_usgs`, lines 168-187; router `get_earthquakes`, lines 55-67) -/

/-- Lookup semantics of `cachetools.TTLCache` (the store behind `self._cache`):
`key in cache` and `cache[key]` treat an entry whose time-to-live has elapsed
as absent, even before it is physically evicted.  An entry is a
`(key, (value, expires_at))` triple. -/
def ttl_lookup {α : Type} (table : List (String × α × Int)) (key : String)
    (now : Int) : Option α :=
  match table.find? (fun kv => kv.1 == key) with
  | some kv => if now < kv.2.2 then some kv.2.1 else none
  | none => none

/-- Outcome of the raw `httpx` GET against the USGS endpoint, as discriminated
by the `except` clauses of `_fetch_from_usgs`. -/
inductive FetchOutcome (α : Type) where
  | success (data : α)
  | timeout (msg : String)
  | httpError (status : Nat)
  | failure (msg : String)
deriving Repr, DecidableEq

/-- `EarthquakeCache._fetch_from_usgs` (lines 168-187), with the transport
outcome and the cache lookup for the same key abstracted: only a
`httpx.TimeoutException` consults the cache; every failure raises
`RuntimeError` (modelled as `Except.error` with the formatted message). -/
def fetch_from_usgs {α : Type} (outcome : FetchOutcome α) (cached : Option α) :
    Except String α :=
  match outcome with
  | FetchOutcome.success d => Except.ok d
  | FetchOutcome.timeout msg =>
      match cached with
      | some d => Except.ok d
      | none => Except.error ("USGS API timeout: " ++ msg)
  | FetchOutcome.httpError status =>
      Except.error ("USGS API error: " ++ toString status)
  | FetchOutcome.failure msg =>
      Except.error ("Failed to fetch earthquake data: " ++ msg)

/-- `_fetch_from_usgs` composed with the TTL cache lookup it performs at
lines 180-182 (`cache_key in self._cache` / `self._cache[cache_key]`). -/
def fetch_from_usgs_cached {α : Type} (outcome : FetchOutcome α)
    (table : List (String × α × Int)) (key : String) (now : Int) :
    Except String α :=
  fetch_from_usgs outcome (ttl_lookup table key now)

/-- The error mapping of the HTTP layer
(`src/backend/routers/earthquake.py`, lines 55-65): a `RuntimeError` from the
service — the only exception type `_fetch_from_usgs` raises — surfaces as an
HTTP 503 with the error text. -/
def router_get_earthquakes {α : Type} (result : Except String α) :
    Except (Nat × String) α :=
  match result with
  | Except.ok d => Except.ok d
  | Except.error e => Except.error (503, e)

/-! ## Cache key (`_build_cache_key`, lines 51-57) -/

/-- Insert one pair into a key-sorted list (helper for the
`json.dumps(..., sort_keys=True)` model). -/
def insertByKey (kv : String × String) :
    List (String × String) → List (String × String)
  | [] => [kv]
  | x :: xs => if kv.1 ≤ x.1 then kv :: x :: xs else x :: insertByKey kv xs

/-- Sort a parameter list by key (Python sorts keys with string `<`,
which is the codepoint-lexicographic order `String.le` models). -/
def sortByKey : List (String × String) → List (String × String)
  | [] => []
  | x :: xs => insertByKey x (sortByKey xs)

/-- Render one `"key": value` member; values are carried as their already
rendered JSON fragments (their rendering never depends on dict order). -/
def render_pair (kv : String × String) : String :=
  "\"" ++ kv.1 ++ "\": " ++ kv.2

/-- Comma-join of rendered members. -/
def joinCommaSep : List String → String
  | [] => ""
  | [x] => x
  | x :: rest => x ++ ", " ++ joinCommaSep rest

/-- `json.dumps(params, sort_keys=True, default=str)`: members serialized in
sorted key order. -/
def json_dumps_sorted (params : List (String × String)) : String :=
  "\x7b" ++ joinCommaSep ((sortByKey params).map render_pair) ++ "\x7d"

/-- `EarthquakeCache._build_cache_key` (lines 51-57).  The implementation
returns `hashlib.md5(serialized.encode()).hexdigest()`; MD5 is a fixed
deterministic function of the serialized string, so the key is modelled by the
serialized string itself — equal serializations give equal MD5 keys, which is
the direction the order-independence property needs. -/
def build_cache_key (params : List (String × String)) : String :=
  json_dumps_sorted params

/-! ## Generic lemmas about the embedded operations -/

theorem findIdx0_some_lt {α : Type} (p : α → Bool) :
    ∀ (l : List α) (j : Nat), findIdx0 p l = some j → j < l.length := by
  intro l
  induction l with
  | nil => intro j h; simp [findIdx0] at h
  | cons a rest ih =>
    intro j h
    rw [findIdx0] at h
    by_cases hp : p a
    · simp [hp] at h
      simp [← h]
    · simp [hp] at h
      obtain ⟨k, hk, rfl⟩ := h
      have := ih k hk
      simp
      omega

theorem findIdx0_some_pred {α : Type} [Inhabited α] (p : α → Bool) :
    ∀ (l : List α) (j : Nat), findIdx0 p l = some j →
      p (l.getD j default) = true := by
  intro l
  induction l with
  | nil => intro j h; simp [findIdx0] at h
  | cons a rest ih =>
    intro j h
    rw [findIdx0] at h
    by_cases hp : p a
    · simp [hp] at h
      simpa [← h, List.getD] using hp
    · simp [hp] at h
      obtain ⟨k, hk, rfl⟩ := h
      simpa [List.getD] using ih k hk

theorem findIdx0_none_iff {α : Type} (p : α → Bool) (l : List α) :
    findIdx0 p l = none ↔ ∀ a ∈ l, p a = false := by
  induction l with
  | nil => simp [findIdx0]
  | cons a rest ih =>
    rw [findIdx0]
    by_cases hp : p a
    · simp [hp]
    · have hpf : p a = false := by simpa using hp
      simp [hpf, ih]

/-- On the tolerance-scan path (empty candidate id), a returned match index
points at an element satisfying all four tolerance bounds. -/
theorem find_match_tolerance_of_empty_id (candidate : Feature)
    (existing : List Feature) (j : Nat) (hid : candidate.id = "")
    (h : find_match candidate existing = some j) :
    within_tolerances (existing.getD j default) candidate = true := by
  unfold find_match at h
  split at h
  · rename_i i heq
    rw [hid] at heq
    simp at heq
  · split at h
    · exact findIdx0_some_pred _ _ _ h
    · cases h

/-- A match index returned by `_find_match` is in range. -/
theorem find_match_some_lt (candidate : Feature) (existing : List Feature)
    (j : Nat) (h : find_match candidate existing = some j) :
    j < existing.length := by
  unfold find_match at h
  split at h
  · rename_i i heq
    cases h
    by_cases hc : candidate.id ≠ ""
    · rw [if_pos hc] at heq
      exact findIdx0_some_lt _ _ _ heq
    · rw [if_neg hc] at heq
      cases heq
  · split at h
    · exact findIdx0_some_lt _ _ _ h
    · cases h

theorem group_falsy_eq_false {o : Option String} (h : group_falsy o = false) :
    ∃ s, s ≠ "" ∧ o = some s := by
  cases o with
  | none => simp [group_falsy] at h
  | some s =>
    refine ⟨s, ?_, rfl⟩
    simpa [group_falsy] using h

theorem match_prefix_ne_empty (s : String) : ("match-" ++ s) ≠ "" := by
  intro h
  have h2 : ("match-" ++ s).data = "".data := congrArg String.data h
  rw [String.data_append] at h2
  exact absurd (List.append_eq_nil.mp h2).1 (by decide)

/-! ## Concrete events used by the claim instances -/

/-- A fully-populated sample event (all required fields present). -/
def testEvent (idv : String) (t : Int) (m la lo : ℚ) (src : Option String) :
    Feature :=
  { id := idv, time := some t, mag := some m, lat := some la, lon := some lo,
    depth := some 10, place := "p", updated := some t, magType := "ml",
    source := src, match_group := none }

/-- C1 instance: merged event with id `"x"` and magnitude 4.2. -/
def c1_item : Feature := testEvent "x" 0 (mkRat 42 10) 0 0 none

/-- C1 instance: incoming event identical to `c1_item` except magnitude 4.51. -/
def c1_cand : Feature := testEvent "x" 0 (mkRat 451 100) 0 0 none

/-- C1 instance: merged event with empty id and magnitude 4.2. -/
def c1_anon : Feature := testEvent "" 0 (mkRat 42 10) 0 0 none

/-- C1 instance: incoming, empty id, magnitude 4.49 (difference 0.29). -/
def c1_probe29 : Feature := testEvent "" 0 (mkRat 449 100) 0 0 none

/-- C1 instance: incoming, empty id, magnitude 4.51 (difference 0.31). -/
def c1_probe31 : Feature := testEvent "" 0 (mkRat 451 100) 0 0 none

/-- C1: the claim as stated is false on the code: two events identical in every
field except a magnitude difference of exactly 0.31 ARE linked when they carry
the same (nonempty) id, because the id-equality pass of `_find_match` precedes
the tolerance check — both end up sharing `match-1`. -/
theorem C1_counterexample :
    qabs (qsub (mkRat 451 100) (mkRat 42 10)) = mkRat 31 100 ∧
    ¬ (mkRat 31 100 ≤ MAG_TOLERANCE) ∧
    within_tolerances c1_item c1_cand = false ∧
    find_match c1_cand [c1_item] = some 0 ∧
    (merge_features [c1_item] [c1_cand]).map (fun f => f.match_group) =
      [some "match-1", some "match-1"] := by
  decide

/-- C1 (amended): a link made by the tolerance scan — in particular whenever
the incoming event's id is empty — requires all four tolerances
(|Δt| ≤ 300000 ms, |Δmag| ≤ 0.3, |Δlat| ≤ 0.2, |Δlon| ≤ 0.2); for events with
empty ids identical except the magnitude, a difference of exactly 0.31 is NOT
linked and 0.29 IS linked.  (An incoming event whose id equals an existing
event's id is linked directly, bypassing the tolerances.) -/
theorem C1_tolerance_gate :
    (∀ (candidate : Feature) (existing : List Feature) (j : Nat),
        candidate.id = "" → find_match candidate existing = some j →
        within_tolerances (existing.getD j default) candidate = true) ∧
    find_match c1_probe29 [c1_anon] = some 0 ∧
    find_match c1_probe31 [c1_anon] = none ∧
    qabs (qsub (mkRat 449 100) (mkRat 42 10)) = mkRat 29 100 ∧
    (mkRat 29 100 ≤ MAG_TOLERANCE) := by
  refine ⟨fun candidate existing j hid h =>
    find_match_tolerance_of_empty_id candidate existing j hid h, ?_, ?_, ?_, ?_⟩
  · decide
  · decide
  · decide
  · decide

/-- C1 witness: the tolerance gate instantiated at the 0.29-difference pair. -/
theorem C1_tolerance_gate_witness :
    c1_probe29.id = "" ∧
    within_tolerances ([c1_anon].getD 0 default) c1_probe29 = true :=
  ⟨by decide, C1_tolerance_gate.1 c1_probe29 [c1_anon] 0 (by decide) (by decide)⟩

/-- C7 instance: incoming event with id `"x"` and every required field
(time, magnitude, coordinates) missing. -/
def c7_cand : Feature :=
  { id := "x", time := none, mag := none, lat := none, lon := none,
    depth := none, place := "", updated := none, magType := "",
    source := some "Kandilli", match_group := none }

/-- C7 instance: merged event with the same id `"x"`. -/
def c7_item : Feature := testEvent "x" 0 5 0 0 none

/-- C7: the claim as stated is false on the code: an incoming event missing
every required field is still linked (and receives a `match_group`) when its id
equals an existing merged event's id, because the id-equality pass of
`_find_match` runs before the required-field guard. -/
theorem C7_counterexample :
    c7_cand.time = none ∧ c7_cand.mag = none ∧
    c7_cand.lat = none ∧ c7_cand.lon = none ∧
    find_match c7_cand [c7_item] = some 0 ∧
    (merge_features [c7_item] [c7_cand]).map (fun f => f.match_group) =
      [some "match-1", some "match-1"] := by
  decide

/-- C7 (amended): an incoming event missing any required field (time,
magnitude, latitude or longitude) is treated as unique — never linked and
given no `match_group` — provided its id does not match any existing merged
event's id (in particular whenever its id is empty/absent); an exact id match
still links it directly. -/
theorem C7_missing_field_unique :
    ∀ (candidate : Feature) (existing : List Feature),
      (∀ f ∈ existing, f.id ≠ candidate.id) →
      (candidate.time = none ∨ candidate.mag = none ∨
       candidate.lat = none ∨ candidate.lon = none) →
      find_match candidate existing = none ∧
      ∀ c : Nat, merge_step (existing, c) candidate = (existing ++ [candidate], c) := by
  intro candidate existing hid hmiss
  have hfm : find_match candidate existing = none := by
    unfold find_match
    have hscan :
        (if candidate.id ≠ "" then
           findIdx0 (fun item => item.id == candidate.id) existing
         else none) = none := by
      by_cases hc : candidate.id ≠ ""
      · rw [if_pos hc, findIdx0_none_iff]
        intro f hf
        simpa using hid f hf
      · rw [if_neg hc]
    rw [hscan]
    have hreq : (candidate.time.isSome && candidate.mag.isSome &&
        candidate.lat.isSome && candidate.lon.isSome) = false := by
      rcases hmiss with h | h | h | h <;> simp [h]
    rw [hreq]
    simp
  refine ⟨hfm, fun c => ?_⟩
  simp only [merge_step, hfm]

/-- C7 witness: a candidate with a fresh id and no required fields stays
unlinked and is appended unchanged. -/
theorem C7_missing_field_unique_witness :
    (∀ f ∈ [c7_item], f.id ≠ "y") ∧
    find_match { c7_cand with id := "y" } [c7_item] = none ∧
    merge_step ([c7_item], 1) { c7_cand with id := "y" } =
      ([c7_item] ++ [{ c7_cand with id := "y" }], 1) := by
  refine ⟨by decide, ?_⟩
  have h := C7_missing_field_unique { c7_cand with id := "y" } [c7_item]
    (by decide) (Or.inl (by decide))
  exact ⟨h.1, h.2 1⟩

/-- C2 instance: USGS event A at the origin. -/
def c2_usgsA : Feature := testEvent "a" 0 5 0 0 none

/-- C2 instance: USGS event B far away (lat/lon 50). -/
def c2_usgsB : Feature := testEvent "b" 0 5 50 50 none

/-- C2 instance: Kandilli event coincident with A. -/
def c2_kandilli : Feature := testEvent "k" 0 5 0 0 (some "Kandilli")

/-- C2 instance: EMSC event coincident with B. -/
def c2_emsc : Feature := testEvent "e" 0 5 50 50 (some "EMSC")

/-- C2: the claim (and the spec) are violated by the code: `group_counter`
restarts at 1 in each `_merge_features` call, and `get_earthquakes` runs two
such calls per query (Kandilli, then EMSC), so the pair (A,K) formed in the
first pass and the pair (B,E) formed in the second pass both receive the
identifier `match-1` — the unrelated events A and B (mutually outside every
tolerance, distinct ids, never matched to each other) end up sharing one
`match_group` value. -/
theorem C2_counter_reset_collision :
    (get_earthquakes_fused { features := [c2_usgsA, c2_usgsB], hasMetadata := true }
        (Except.ok [c2_kandilli]) (Except.ok [c2_emsc])).features.map
        (fun f => (f.id, f.match_group)) =
      [("a", some "match-1"), ("b", some "match-1"),
       ("k", some "match-1"), ("e", some "match-1")] ∧
    within_tolerances c2_usgsA c2_usgsB = false ∧
    within_tolerances c2_usgsB c2_usgsA = false ∧
    c2_usgsA.id ≠ c2_usgsB.id := by
  decide

/-- C4: the sample Kandilli line parses to exactly one event whose `time_ms`
is the epoch-millisecond value of 2024-01-15T05:30:00Z (the UTC+3 offset
removed), whose magnitude is 4.2 (the second magnitude column, the first that
parses after the `-.-` placeholder, hence type `ml`), and whose place is
`"Some Place Name"`; and any line whose stripped text does not begin with the
`YYYY.MM.DD HH:MM:SS` timestamp pattern contributes zero events. -/
theorem C4_kandilli_line :
    ((parse_kandilli_text
        "2024.01.15 08:30:00  39.12  29.05  7.3  -.-  4.2  3.9 Some Place Name").map
        (fun f => (f.time, f.mag, f.magType, f.place)) =
      [(some 1705296600000, some (mkRat 42 10), "ml", "Some Place Name")]) ∧
    to_utc_ms { year := 2024, month := 1, day := 15, hour := 5, minute := 30,
                second := 0, tzOffsetSecs := some 0 } = 1705296600000 ∧
    mkRat 42 10 = (42 : ℚ) / 10 ∧
    (∀ rawLine : List Char, kandilli_line_pattern (pyStrip rawLine) = false →
      parse_kandilli_line rawLine = none) := by
  refine ⟨by decide, by decide, ?_, ?_⟩
  · rw [Rat.mkRat_eq_div]
    norm_num
  · intro rawLine h
    simp only [parse_kandilli_line, h]
    simp

/-- C4 witness: a prose line is skipped. -/
theorem C4_kandilli_line_witness :
    kandilli_line_pattern (pyStrip "Son depremler listesi".data) = false ∧
    parse_kandilli_line "Son depremler listesi".data = none :=
  ⟨by decide, C4_kandilli_line.2.2.2 _ (by decide)⟩

/-! ## The Kandilli local filter is exactly a window-and-bounds filter -/

theorem kandilli_step_eq (s e : Int) (mn : ℚ) (mx : Option ℚ)
    (acc : List Feature) (f : Feature) :
    kandilli_filter_step s e mn mx acc f =
      acc ++ (if kandilli_keep s e mn mx f then [f] else []) := by
  unfold kandilli_filter_step kandilli_keep
  cases hm : f.mag with
  | none => cases ht : f.time <;> simp
  | some mag =>
    cases ht : f.time with
    | none => simp
    | some t =>
      dsimp only
      by_cases h1 : t < s ∨ t > e
      · rw [if_pos h1]
        have hkeep : (decide (s ≤ t) && decide (t ≤ e) && decide (mn ≤ mag) &&
            (match mx with | none => true | some mxv => decide (mag ≤ mxv))) = false := by
          rcases h1 with h | h
          · simp [decide_eq_false (by omega : ¬ s ≤ t)]
          · simp [decide_eq_false (by omega : ¬ t ≤ e)]
        rw [hkeep]
        simp
      · rw [if_neg h1]
        have hst : s ≤ t := by omega
        have hte : t ≤ e := by omega
        by_cases h2 : mag < mn
        · rw [if_pos h2]
          have hkeep : (decide (s ≤ t) && decide (t ≤ e) && decide (mn ≤ mag) &&
              (match mx with | none => true | some mxv => decide (mag ≤ mxv))) = false := by
            simp [decide_eq_false (not_le.mpr h2)]
          rw [hkeep]
          simp
        · rw [if_neg h2]
          have hmn : mn ≤ mag := not_lt.mp h2
          cases mx with
          | none =>
            simp [decide_eq_true hst, decide_eq_true hte, decide_eq_true hmn]
          | some mxv =>
            by_cases h3 : mag > mxv
            · rw [if_pos (by simpa using h3)]
              have hkeep : (decide (s ≤ t) && decide (t ≤ e) && decide (mn ≤ mag) &&
                  decide (mag ≤ mxv)) = false := by
                simp [decide_eq_false (not_le.mpr h3)]
              rw [hkeep]
              simp
            · rw [if_neg (by simpa using h3)]
              simp [decide_eq_true hst, decide_eq_true hte, decide_eq_true hmn,
                decide_eq_true (not_lt.mp h3)]

theorem kandilli_foldl_filter (s e : Int) (mn : ℚ) (mx : Option ℚ) :
    ∀ (l init : List Feature),
      l.foldl (kandilli_filter_step s e mn mx) init =
        init ++ l.filter (kandilli_keep s e mn mx) := by
  intro l
  induction l with
  | nil => intro init; simp
  | cons f rest ih =>
    intro init
    rw [List.foldl_cons, kandilli_step_eq, ih]
    by_cases h : kandilli_keep s e mn mx f
    · simp [List.filter_cons, h, List.append_assoc]
    · simp [List.filter_cons, h]

/-- C9: the Kandilli adapter's local filtering keeps exactly the parsed events
whose (present) time lies within `[start_ms, end_ms]` and whose (present)
magnitude is `≥ min_magnitude` and, when `max_magnitude` is set,
`≤ max_magnitude`; events with a missing magnitude or time are excluded.
Both for the filtering core on any feature list, and for the composed
`_get_kandilli_features` on the fetched text with the query datetimes
converted by `_to_utc_ms`. -/
theorem C9_kandilli_filter_exact :
    (∀ (features : List Feature) (startMs endMs : Int) (mn : ℚ) (mx : Option ℚ),
        kandilli_local_filter features startMs endMs mn mx =
          features.filter (kandilli_keep startMs endMs mn mx)) ∧
    (∀ (text : String) (st et : PyDateTime) (mn : ℚ) (mx : Option ℚ),
        get_kandilli_features text st et mn mx =
          (parse_kandilli_text text).filter
            (kandilli_keep (to_utc_ms st) (to_utc_ms et) mn mx)) := by
  have hcore : ∀ (features : List Feature) (startMs endMs : Int) (mn : ℚ)
      (mx : Option ℚ),
      kandilli_local_filter features startMs endMs mn mx =
        features.filter (kandilli_keep startMs endMs mn mx) := by
    intro features s e mn mx
    unfold kandilli_local_filter
    by_cases h : features.isEmpty
    · rw [if_pos h]
      rw [List.isEmpty_iff.mp h]
      simp
    · rw [if_neg h]
      simpa using kandilli_foldl_filter s e mn mx features []
  exact ⟨hcore, fun text st et mn mx => hcore _ _ _ _ _⟩

/-! ## C3: primary-fetch fallback -/

/-- C3 instance: a single cached entry for key `"k"` that expires at time 100
(it is in the table — not evicted — at every `now`). -/
def c3_table : List (String × FusedResponse × Int) :=
  [("k", ({ features := [], metadata := none }, 100))]

/-- C3: the claim as stated is false on the code, in both directions it
quantifies over.  (a) A primary failure that is not a timeout (an HTTP error)
raises even though an unexpired cache entry for the identical key exists — only
`httpx.TimeoutException` consults the cache.  (b) On a timeout, an entry past
its TTL but not yet evicted is NOT returned: the `TTLCache` lookup treats an
expired entry as absent, so the fetch raises. -/
theorem C3_counterexample :
    (ttl_lookup c3_table "k" 50 = some { features := [], metadata := none } ∧
     fetch_from_usgs_cached (FetchOutcome.httpError 500) c3_table "k" 50 =
       Except.error "USGS API error: 500") ∧
    ((c3_table.find? (fun kv => kv.1 == "k")).isSome = true ∧
     ttl_lookup c3_table "k" 200 = none ∧
     fetch_from_usgs_cached (FetchOutcome.timeout "read timed out") c3_table "k" 200 =
       Except.error "USGS API timeout: read timed out") :=
  ⟨⟨by decide, rfl⟩, by decide, by decide, rfl⟩

/-- C3 (amended): only a primary-fetch *timeout* falls back to the cache, and
only an entry still within its TTL is returned; a timeout with no live entry,
an HTTP error, or any other failure raises a `RuntimeError`, which the HTTP
layer surfaces as a 503 service-unavailable response. -/
theorem C3_timeout_only_fallback {α : Type} (outcomeMsg : String)
    (table : List (String × α × Int)) (key : String) (now : Int) :
    (∀ d : α, ttl_lookup table key now = some d →
        fetch_from_usgs_cached (FetchOutcome.timeout outcomeMsg) table key now =
          Except.ok d) ∧
    (ttl_lookup table key now = none →
        router_get_earthquakes
            (fetch_from_usgs_cached (FetchOutcome.timeout outcomeMsg) table key now) =
          Except.error (503, "USGS API timeout: " ++ outcomeMsg)) ∧
    (∀ (status : Nat) (cached : Option α),
        router_get_earthquakes (fetch_from_usgs (FetchOutcome.httpError status) cached) =
          Except.error (503, "USGS API error: " ++ toString status)) ∧
    (∀ (msg : String) (cached : Option α),
        router_get_earthquakes (fetch_from_usgs (FetchOutcome.failure msg) cached) =
          Except.error (503, "Failed to fetch earthquake data: " ++ msg)) := by
  refine ⟨?_, ?_, ?_, ?_⟩
  · intro d h
    simp [fetch_from_usgs_cached, fetch_from_usgs, h]
  · intro h
    simp [fetch_from_usgs_cached, fetch_from_usgs, router_get_earthquakes, h]
  · intro status cached
    simp [fetch_from_usgs, router_get_earthquakes]
  · intro msg cached
    simp [fetch_from_usgs, router_get_earthquakes]

/-- C3 witness: a timeout with a live cache entry returns the cached payload. -/
theorem C3_timeout_only_fallback_witness :
    ttl_lookup c3_table "k" 50 = some { features := [], metadata := none } ∧
    fetch_from_usgs_cached (FetchOutcome.timeout "t") c3_table "k" 50 =
      Except.ok { features := [], metadata := none } :=
  ⟨by decide,
   (C3_timeout_only_fallback "t" c3_table "k" 50).1
     { features := [], metadata := none } (by decide)⟩

/-! ## C5: secondary-source failures are isolated -/

/-- C5: when a secondary adapter fails or times out (any `Except.error`,
including the `RuntimeError("Timeout after 3s")` produced by
`_fetch_with_timeout` on a timeout), the query still returns a full fused
payload: the failing source is recorded in the metadata `sources` map as
`{ok: false, error: <text>}`, it contributes zero events (the fused features
equal those computed from an empty list for that source), and no exception
escapes — stated for each of the two secondary sources (Kandilli and EMSC),
for a USGS payload carrying a metadata object. -/
theorem C5_secondary_failure_isolated :
    ∀ (usgs : UsgsData) (e : String) (other : Except String (List Feature)),
      usgs.hasMetadata = true →
      ((get_earthquakes_fused usgs (Except.error e) other).features =
          (get_earthquakes_fused usgs (Except.ok []) other).features ∧
        (get_earthquakes_fused usgs (Except.error e) other).metadata =
          some { count := (get_earthquakes_fused usgs (Except.error e) other).features.length,
                 sources := [("USGS", ⟨true, none⟩), ("Kandilli", ⟨false, some e⟩),
                             ("EMSC", (source_entry other).2)] }) ∧
      ((get_earthquakes_fused usgs other (Except.error e)).features =
          (get_earthquakes_fused usgs other (Except.ok [])).features ∧
        (get_earthquakes_fused usgs other (Except.error e)).metadata =
          some { count := (get_earthquakes_fused usgs other (Except.error e)).features.length,
                 sources := [("USGS", ⟨true, none⟩), ("Kandilli", (source_entry other).2),
                             ("EMSC", ⟨false, some e⟩)] }) ∧
      @fetch_with_timeout (List Feature) none = Except.error "Timeout after 3s" := by
  intro usgs e other h
  refine ⟨⟨rfl, ?_⟩, ⟨rfl, ?_⟩, rfl⟩ <;>
    simp [get_earthquakes_fused, source_entry, h]

/-- C5 witness: a concrete Kandilli failure is recorded with its error text
and an empty contribution. -/
theorem C5_secondary_failure_isolated_witness :
    UsgsData.hasMetadata { features := [], hasMetadata := true } = true ∧
    (get_earthquakes_fused { features := [], hasMetadata := true }
        (Except.error "boom") (Except.ok [])).metadata =
      some { count := 0,
             sources := [("USGS", ⟨true, none⟩), ("Kandilli", ⟨false, some "boom"⟩),
                         ("EMSC", ⟨true, none⟩)] } :=
  ⟨rfl,
   ((C5_secondary_failure_isolated { features := [], hasMetadata := true } "boom"
       (Except.ok []) rfl).1.2).trans (by decide)⟩

/-! ## C8: cache-key order independence -/

/-- Key order on parameter pairs. -/
def keyLE (a b : String × String) : Prop := a.1 ≤ b.1

/-- Strict key order on parameter pairs. -/
def keyLT (a b : String × String) : Prop := a.1 < b.1

theorem insertByKey_perm (kv : String × String) :
    ∀ l : List (String × String), (insertByKey kv l).Perm (kv :: l) := by
  intro l
  induction l with
  | nil => exact List.Perm.refl _
  | cons x xs ih =>
    rw [insertByKey]
    by_cases h : kv.1 ≤ x.1
    · rw [if_pos h]
    · rw [if_neg h]
      exact (ih.cons x).trans (List.Perm.swap kv x xs)

theorem sortByKey_perm : ∀ l : List (String × String), (sortByKey l).Perm l := by
  intro l
  induction l with
  | nil => exact List.Perm.refl _
  | cons x xs ih =>
    rw [sortByKey]
    exact (insertByKey_perm x (sortByKey xs)).trans (ih.cons x)

theorem insertByKey_sorted (kv : String × String) :
    ∀ l : List (String × String), l.Pairwise keyLE →
      (insertByKey kv l).Pairwise keyLE := by
  intro l
  induction l with
  | nil =>
    intro _
    simp [insertByKey, List.pairwise_cons]
  | cons x xs ih =>
    intro h
    rcases List.pairwise_cons.mp h with ⟨hx, hxs⟩
    rw [insertByKey]
    by_cases hle : kv.1 ≤ x.1
    · rw [if_pos hle]
      refine List.pairwise_cons.mpr ⟨?_, h⟩
      intro b hb
      rcases List.mem_cons.mp hb with rfl | hbxs
      · exact hle
      · exact le_trans hle (hx b hbxs)
    · rw [if_neg hle]
      refine List.pairwise_cons.mpr ⟨?_, ih hxs⟩
      intro b hb
      rcases List.mem_cons.mp ((insertByKey_perm kv xs).mem_iff.mp hb) with rfl | hbxs
      · exact le_of_not_le hle
      · exact hx b hbxs

theorem sortByKey_sorted : ∀ l : List (String × String),
    (sortByKey l).Pairwise keyLE := by
  intro l
  induction l with
  | nil => simp [sortByKey]
  | cons x xs ih =>
    rw [sortByKey]
    exact insertByKey_sorted x (sortByKey xs) ih

/-- C8: the cache key is a function of the parameter map's key-value pairs
only: any two parameter lists holding the same pairs (in any construction
order, with the distinct keys a Python dict guarantees) serialize — and hence
hash — identically, because `_build_cache_key` serializes with sorted keys. -/
theorem C8_cache_key_order_independent (p1 p2 : List (String × String))
    (hperm : p1.Perm p2) (hnodup : (p1.map Prod.fst).Nodup) :
    build_cache_key p1 = build_cache_key p2 := by
  have hsorteq : sortByKey p1 = sortByKey p2 := by
    have hp : (sortByKey p1).Perm (sortByKey p2) :=
      (sortByKey_perm p1).trans (hperm.trans (sortByKey_perm p2).symm)
    have hne1 : p1.Pairwise (fun a b : String × String => a.1 ≠ b.1) :=
      List.pairwise_map.mp hnodup
    have hne2 : p2.Pairwise (fun a b : String × String => a.1 ≠ b.1) :=
      (hperm.pairwise_iff (fun h => h.symm)).mp hne1
    have hs1 : (sortByKey p1).Pairwise (fun a b : String × String => a.1 ≠ b.1) :=
      ((sortByKey_perm p1).pairwise_iff (fun h => h.symm)).mpr hne1
    have hs2 : (sortByKey p2).Pairwise (fun a b : String × String => a.1 ≠ b.1) :=
      ((sortByKey_perm p2).pairwise_iff (fun h => h.symm)).mpr hne2
    have hlt1 : (sortByKey p1).Pairwise keyLT :=
      ((sortByKey_sorted p1).and hs1).imp
        (fun hab => lt_of_le_of_ne hab.1 hab.2)
    have hlt2 : (sortByKey p2).Pairwise keyLT :=
      ((sortByKey_sorted p2).and hs2).imp
        (fun hab => lt_of_le_of_ne hab.1 hab.2)
    haveI : IsAntisymm (String × String) keyLT :=
      ⟨fun a b h1 h2 => absurd (lt_trans h1 h2) (lt_irrefl _)⟩
    exact List.eq_of_perm_of_sorted hp hlt1 hlt2
  unfold build_cache_key json_dumps_sorted
  rw [hsorteq]

/-- C8 witness: two construction orders of the same two-parameter map. -/
theorem C8_cache_key_order_independent_witness :
    ([("minmagnitude", "2.5"), ("format", "geojson")] : List (String × String)).Perm
      [("format", "geojson"), ("minmagnitude", "2.5")] ∧
    (([("minmagnitude", "2.5"), ("format", "geojson")] : List (String × String)).map
      Prod.fst).Nodup ∧
    build_cache_key [("minmagnitude", "2.5"), ("format", "geojson")] =
      build_cache_key [("format", "geojson"), ("minmagnitude", "2.5")] :=
  ⟨List.Perm.swap _ _ _, by decide,
   C8_cache_key_order_independent _ _ (List.Perm.swap _ _ _) (by decide)⟩

/-! ## C6 and C10: the merge fold retains every event and only touches
`source` and `match_group` -/

/-- How an element already present in the merged list can evolve during the
fold: core fields and `source` never change; `match_group` is either untouched
or — only when it was falsy (absent or empty) — set to a generated
`match-<n>` identifier. -/
def keep_rel (g0 g : Feature) : Prop :=
  core g = core g0 ∧ g.source = g0.source ∧
  (g.match_group = g0.match_group ∨
    (group_falsy g0.match_group = true ∧
      ∃ n : Nat, g.match_group = some ("match-" ++ toString n)))

/-- How an incoming feature relates to the element the fold keeps for it:
core fields and `source` unchanged; `match_group` either untouched or set to
some truthy (nonempty) group identifier. -/
def frame_incoming (f g : Feature) : Prop :=
  core g = core f ∧ g.source = f.source ∧
  (g.match_group = f.match_group ∨ ∃ s : String, s ≠ "" ∧ g.match_group = some s)

/-- How a base feature relates to its final merged element: core fields
unchanged, `source` defaulted to `"USGS"` exactly when absent (never
overwritten), `match_group` set only when it was falsy (first match). -/
def frame_base (f g : Feature) : Prop :=
  core g = core f ∧
  g.source = (match f.source with | none => some "USGS" | some s => some s) ∧
  (g.match_group = f.match_group ∨
    (group_falsy f.match_group = true ∧
      ∃ n : Nat, g.match_group = some ("match-" ++ toString n)))

theorem keep_rel_refl (g : Feature) : keep_rel g g := ⟨rfl, rfl, Or.inl rfl⟩

theorem frame_incoming_refl (f : Feature) : frame_incoming f f :=
  ⟨rfl, rfl, Or.inl rfl⟩

theorem keep_rel_trans {a b c : Feature} (h1 : keep_rel a b)
    (h2 : keep_rel b c) : keep_rel a c := by
  obtain ⟨hc1, hs1, hm1⟩ := h1
  obtain ⟨hc2, hs2, hm2⟩ := h2
  refine ⟨hc2.trans hc1, hs2.trans hs1, ?_⟩
  rcases hm1 with hm1 | ⟨hf1, n1, hn1⟩
  · rcases hm2 with hm2 | ⟨hf2, n2, hn2⟩
    · exact Or.inl (hm2.trans hm1)
    · exact Or.inr ⟨hm1 ▸ hf2, n2, hn2⟩
  · rcases hm2 with hm2 | ⟨hf2, n2, hn2⟩
    · exact Or.inr ⟨hf1, n1, hm2.trans hn1⟩
    · exact Or.inr ⟨hf1, n2, hn2⟩

theorem frame_incoming_keep_trans {f b c : Feature} (h1 : frame_incoming f b)
    (h2 : keep_rel b c) : frame_incoming f c := by
  obtain ⟨hc1, hs1, hm1⟩ := h1
  obtain ⟨hc2, hs2, hm2⟩ := h2
  refine ⟨hc2.trans hc1, hs2.trans hs1, ?_⟩
  rcases hm1 with hm1 | ⟨s, hs, hsome⟩
  · rcases hm2 with hm2 | ⟨hf2, n, hn⟩
    · exact Or.inl (hm2.trans hm1)
    · exact Or.inr ⟨"match-" ++ toString n, match_prefix_ne_empty _, hn⟩
  · rcases hm2 with hm2 | ⟨hf2, n, hn⟩
    · exact Or.inr ⟨s, hs, hm2.trans hsome⟩
    · exact Or.inr ⟨"match-" ++ toString n, match_prefix_ne_empty _, hn⟩

theorem forall2_trans_gen {α β γ : Type} {R : α → β → Prop} {S : β → γ → Prop}
    {T : α → γ → Prop} (H : ∀ a b c, R a b → S b c → T a c) :
    ∀ {l1 : List α} {l2 : List β} {l3 : List γ},
      List.Forall₂ R l1 l2 → List.Forall₂ S l2 l3 → List.Forall₂ T l1 l3 := by
  intro l1 l2 l3 h1
  induction h1 generalizing l3 with
  | nil => intro h2; cases h2; exact List.Forall₂.nil
  | cons hr _ ih =>
    intro h2
    cases h2 with
    | cons hs hrest2 => exact List.Forall₂.cons (H _ _ _ hr hs) (ih hrest2)

theorem forall2_append_split {α β : Type} {R : α → β → Prop} :
    ∀ {l1 l2 : List α} {p : List β}, List.Forall₂ R (l1 ++ l2) p →
      ∃ p1 p2, p = p1 ++ p2 ∧ List.Forall₂ R l1 p1 ∧ List.Forall₂ R l2 p2 := by
  intro l1
  induction l1 with
  | nil =>
    intro l2 p h
    exact ⟨[], p, rfl, List.Forall₂.nil, by simpa using h⟩
  | cons a l1 ih =>
    intro l2 p h
    cases h with
    | cons hr hrest =>
      obtain ⟨p1, p2, rfl, h1, h2⟩ := ih hrest
      exact ⟨_ :: p1, p2, rfl, List.Forall₂.cons hr h1, h2⟩

theorem forall2_set {R : Feature → Feature → Prop} (hrefl : ∀ a, R a a) :
    ∀ (l : List Feature) (i : Nat) (x : Feature),
      R (l.getD i default) x → i < l.length → List.Forall₂ R l (l.set i x) := by
  intro l
  induction l with
  | nil => intro i x _ hi; simp at hi
  | cons a rest ih =>
    intro i x hR hi
    cases i with
    | zero =>
      rw [List.set_cons_zero]
      exact List.Forall₂.cons (by simpa [List.getD] using hR)
        (List.forall₂_same.mpr fun b _ => hrefl b)
    | succ k =>
      rw [List.set_cons_succ]
      exact List.Forall₂.cons (hrefl a)
        (ih k x (by simpa [List.getD] using hR) (by simpa using hi))

/-- One `merge_step` appends exactly one element (related to the incoming
feature) and leaves the existing elements related by `keep_rel`. -/
theorem merge_step_shape (acc : List Feature × Nat) (f : Feature) :
    ∃ (pre : List Feature) (x : Feature),
      (merge_step acc f).1 = pre ++ [x] ∧
      List.Forall₂ keep_rel acc.1 pre ∧ frame_incoming f x := by
  cases hfm : find_match f acc.1 with
  | none =>
    refine ⟨acc.1, f, ?_, ?_, frame_incoming_refl f⟩
    · simp [merge_step, hfm]
    · exact List.forall₂_same.mpr fun a _ => keep_rel_refl a
  | some i =>
    have hi : i < acc.1.length := find_match_some_lt f acc.1 i hfm
    by_cases hfal : group_falsy (acc.1.getD i default).match_group = true
    · refine ⟨acc.1.set i
          { acc.1.getD i default with
            match_group := some ("match-" ++ toString acc.2) },
        { f with match_group := some ("match-" ++ toString acc.2) }, ?_, ?_, ?_⟩
      · simp only [merge_step, hfm]
        rw [if_pos hfal]
      · exact forall2_set keep_rel_refl acc.1 i _
          ⟨rfl, rfl, Or.inr ⟨hfal, acc.2, rfl⟩⟩ hi
      · exact ⟨rfl, rfl, Or.inr ⟨_, match_prefix_ne_empty _, rfl⟩⟩
    · rw [Bool.not_eq_true] at hfal
      obtain ⟨s, hs, hsome⟩ := group_falsy_eq_false hfal
      refine ⟨acc.1,
        { f with match_group := (acc.1.getD i default).match_group }, ?_, ?_, ?_⟩
      · simp only [merge_step, hfm]
        rw [if_neg (by simp only [List.getD_eq_getElem?_getD] at hfal; simp [hfal])]
      · exact List.forall₂_same.mpr fun a _ => keep_rel_refl a
      · exact ⟨rfl, rfl, Or.inr ⟨s, hs, hsome⟩⟩

/-- The incoming-feature fold of `_merge_features`: the result is the evolved
initial list followed by one element per incoming feature, in order. -/
theorem merge_fold_spec :
    ∀ (incoming : List Feature) (acc : List Feature × Nat),
      ∃ p q, (incoming.foldl merge_step acc).1 = p ++ q ∧
        List.Forall₂ keep_rel acc.1 p ∧
        List.Forall₂ frame_incoming incoming q := by
  intro incoming
  induction incoming with
  | nil =>
    intro acc
    exact ⟨acc.1, [], by simp,
      List.forall₂_same.mpr fun a _ => keep_rel_refl a, List.Forall₂.nil⟩
  | cons f rest ih =>
    intro acc
    rw [List.foldl_cons]
    obtain ⟨pre, x, hshape, hkeep1, hnew1⟩ := merge_step_shape acc f
    obtain ⟨p, q, heq, hkeep2, hnew2⟩ := ih (merge_step acc f)
    rw [hshape] at hkeep2
    obtain ⟨p1, p2, rfl, hk1, hk2⟩ := forall2_append_split hkeep2
    cases hk2 with
    | cons hxy hnil =>
      cases hnil
      rename_i y
      refine ⟨p1, y :: q, ?_, ?_, ?_⟩
      · rw [heq]
        simp
      · exact @forall2_trans_gen Feature Feature Feature keep_rel keep_rel
          keep_rel (fun _ _ _ hab hbc => keep_rel_trans hab hbc) _ _ _ hkeep1 hk1
      · exact List.Forall₂.cons (frame_incoming_keep_trans hnew1 hxy) hnew2

theorem forall2_core_map {R : Feature → Feature → Prop}
    (hcore : ∀ a b, R a b → core b = core a) :
    ∀ {l p : List Feature}, List.Forall₂ R l p → p.map core = l.map core := by
  intro l p h
  induction h with
  | nil => rfl
  | cons hr _ ih => simp [ih, hcore _ _ hr]

/-- C6: fusion retains every event: the merged sequence is, field-for-field
on every fusion-invariant field (`core`: id, time, magnitude, coordinates,
depth, place, updated, magnitude type), the base list followed by the incoming
list, each event exactly once in its original order — duplicates are tagged,
never dropped — so the merged length is the sum of the input lengths. -/
theorem C6_all_events_retained (base incoming : List Feature) :
    (merge_features base incoming).map core = base.map core ++ incoming.map core ∧
    (merge_features base incoming).length = base.length + incoming.length := by
  obtain ⟨p, q, heq, hkeep, hnew⟩ := merge_fold_spec incoming (base.map tag_source, 1)
  have hmerge : merge_features base incoming = p ++ q := heq
  have hp : p.map core = base.map core := by
    have h1 := forall2_core_map (fun a b h => h.1) hkeep
    rw [h1, List.map_map]
    rfl
  have hq : q.map core = incoming.map core :=
    forall2_core_map (fun a b h => h.1) hnew
  have hmap : (merge_features base incoming).map core =
      base.map core ++ incoming.map core := by
    rw [hmerge, List.map_append, hp, hq]
  refine ⟨hmap, ?_⟩
  have := congrArg List.length hmap
  simpa using this

/-- C10: fusion modifies at most two properties of any event: for base events,
`source` is set to `"USGS"` exactly when absent (never overwritten) and
`match_group` is set (to a generated `match-<n>`) only when it was previously
falsy, i.e. on the event's first match; for incoming events, `source` is
untouched and `match_group` is either untouched or set to a truthy group
identifier; every other field (id, time, magnitude, coordinates, depth, place,
updated, magnitude type — the `core` projection) is unchanged, and the events
appear in order: base prefix, then incoming. -/
theorem C10_merge_frame (base incoming : List Feature) :
    ∃ p q, merge_features base incoming = p ++ q ∧
      List.Forall₂ frame_base base p ∧
      List.Forall₂ frame_incoming incoming q := by
  obtain ⟨p, q, heq, hkeep, hnew⟩ := merge_fold_spec incoming (base.map tag_source, 1)
  refine ⟨p, q, heq, ?_, hnew⟩
  have h1 := List.forall₂_map_left_iff.mp hkeep
  exact h1.imp fun a b h => ⟨h.1, h.2.1, h.2.2⟩
